import Mathlib

/-!
Shallow embedding of the `himark` crate (src/lib.rs): the marker-trait
validator `marker` and the implementation generator `mark`, together with
the slice of the syn data model that those two entry points consume.
Source-span information is abstracted as natural numbers; token streams of
declarations are kept structural.
-/

namespace Himark

/-- A source span, abstracted as an opaque location identifier. -/
abbrev Span := Nat

/-- A path of identifiers as produced by the syntax model for trait names:
simple like `Array` or qualified like `qualified::TraitC`. -/
structure Path where
  segments : List String
deriving DecidableEq

/-- A generic parameter of a declaration, mirroring syn::GenericParam: a
type parameter or lifetime parameter with its inline bounds, or a const
parameter with its type. -/
inductive GenericParam where
  | typeParam (name : String) (bounds : List String)
  | lifetimeParam (name : String) (bounds : List String)
  | constParam (name : String) (ty : String)
deriving DecidableEq

/-- The bare use of a generic parameter (its name only, bounds stripped),
as it appears in the implementation target `Name<...>`. -/
def GenericParam.bare : GenericParam → String
  | .typeParam n _ => n
  | .lifetimeParam n _ => n
  | .constParam n _ => n

/-- A trailing `where` clause: an ordered sequence of bound predicates,
kept as they are written. -/
structure WhereClause where
  predicates : List String
deriving DecidableEq

/-- The generics of a declaration, mirroring syn::Generics: the ordered
parameter list as declared (inline bounds attached) and the optional
separate `where` clause. -/
structure Generics where
  params : List GenericParam
  whereClause : Option WhereClause
deriving DecidableEq

/-- The three-way decomposition performed by `Generics::split_for_impl` in
the source: the parameter list as declared (for the `impl<...>` header),
the parameters used bare (for the target `Name<...>`), and the `where`
clause (for the trailing constraint clause). -/
def Generics.splitForImpl (g : Generics) :
    List GenericParam × List String × Option WhereClause :=
  (g.params, g.params.map GenericParam.bare, g.whereClause)

/-- An attribute meta item, mirroring syn::Meta: a bare path, a list such
as `classifier(sealed)` whose nested tokens we keep as paths, or a
name-value pair. -/
inductive Meta where
  | path (p : Path)
  | list (p : Path) (nested : List Path)
  | nameValue (p : Path) (value : String)
deriving DecidableEq

/-- An attribute attached to a declaration. -/
structure Attribute where
  meta : Meta
deriving DecidableEq

/-- A named field of a struct or union body; opaque to the generator. -/
structure Field where
  name : String
  ty : String
deriving DecidableEq

/-- The body of a derive-input item, mirroring syn::Data: struct fields,
enum variants, or union fields. -/
inductive Data where
  | structData (fields : List Field)
  | enumData (variants : List String)
  | unionData (fields : List Field)
deriving DecidableEq

/-- A parsed derive input, mirroring syn::DeriveInput: outer attributes,
the identifier (with its span), the generics, and the body. -/
structure DeriveInput where
  attrs : List Attribute
  identSpan : Span
  ident : String
  generics : Generics
  data : Data
deriving DecidableEq

/-- An associated item inside a trait body, mirroring syn::TraitItem: an
associated constant, a method signature, an associated type, or other
verbatim tokens. -/
inductive TraitItem where
  | constItem (name : String)
  | fnItem (name : String)
  | typeItem (name : String)
  | verbatimItem (tokens : List String)
deriving DecidableEq

/-- A parsed trait declaration, mirroring syn::ItemTrait: the span of the
full declaration, the name, the super-trait bounds, and the ordered
sequence of associated items. -/
structure ItemTrait where
  span : Span
  ident : String
  supertraits : List Path
  items : List TraitItem
deriving DecidableEq

/-- A compile-time diagnostic: a message anchored at a span.  Returning a
diagnostic models `syn::Error::to_compile_error`: the expansion consists of
the error alone and no declaration is emitted. -/
structure Diagnostic where
  span : Span
  message : String
deriving DecidableEq

/-- The `marker` attribute (src/lib.rs, `pub fn marker`): rejects a trait
whose associated-item sequence is non-empty with a fixed message spanned to
the whole declaration, and otherwise re-emits the trait unchanged. -/
def marker (input_trait : ItemTrait) : Except Diagnostic ItemTrait :=
  if !input_trait.items.isEmpty then
    .error ⟨input_trait.span,
      "The #[marker] attribute can only be applied to empty traits"⟩
  else
    .ok input_trait

/-- The payload of the sealing qualifier (src/lib.rs, `struct Sealed`). -/
structure Sealed where
  visibility : Option Meta
deriving DecidableEq

/-- Qualifiers recognised on the annotated type (src/lib.rs,
`struct Qualifiers`): presently only the sealing qualifier. -/
structure Qualifiers where
  sealed : Option Sealed
deriving DecidableEq

/-- Qualifier collection (src/lib.rs, `FromIterator` for `Qualifiers`):
scan the attribute list for a `classifier(...)` list whose nested meta
names `sealed` and record it.  In the source revision the assignment
inside the scan names a field the struct does not declare; the evident
intent (recording the sealed flag) is modelled.  The resulting value is
computed by `mark` and never used. -/
def Qualifiers.fromAttrs (attrs : List Attribute) : Qualifiers :=
  attrs.foldl
    (fun q attr =>
      match attr.meta with
      | Meta.list p nested =>
          if p.segments = ["classifier"] then
            if nested.any (fun n => n.segments = ["sealed"]) then
              { sealed := some ⟨none⟩ }
            else q
          else q
      | _ => q)
    ⟨none⟩

/-- One argument of the marking attribute as the nested-meta parser sees
it: a bare path, a path with an attached `= value`, or a path with an
attached parenthesised meta list, each at its span. -/
inductive MetaArg where
  | path (sp : Span) (p : Path)
  | nameValue (sp : Span) (p : Path) (value : String)
  | metaList (sp : Span) (p : Path) (nested : List Path)
deriving DecidableEq

/-- The span of an argument. -/
def MetaArg.span : MetaArg → Span
  | .path s _ => s
  | .nameValue s _ _ => s
  | .metaList s _ _ => s

/-- The argument-collection loop of `mark` (src/lib.rs, the closure given
to `syn::meta::parser`): for each argument, `meta.value()` is attempted;
on failure the argument's path is collected, on success the loop aborts
with "expected trait name" at that argument.  A parenthesised meta list
makes `meta.value()` fail, so its path is collected, but the enclosing
nested-meta loop then finds `(` where it requires `,` and aborts with the
comma-token diagnostic; either error discards everything collected. -/
def parseTraitNames : List MetaArg → Except Diagnostic (List Path)
  | [] => .ok []
  | MetaArg.path _ p :: rest =>
      match parseTraitNames rest with
      | .ok ps => .ok (p :: ps)
      | .error e => .error e
  | MetaArg.nameValue s _ _ :: _ => .error ⟨s, "expected trait name"⟩
  | MetaArg.metaList s _ _ :: _ => .error ⟨s, "expected `,`"⟩

/-- A synthesized empty implementation block, recording the pieces of
`impl #impl_generics #trait_name for #ident #ty_generics #where_clause`
with an empty body.  The uniform span applied by `quote_spanned!` is
location metadata, not syntax, and is not part of the block. -/
structure ImplBlock where
  implGenerics : List GenericParam
  traitName : Path
  selfIdent : String
  tyGenerics : List String
  whereClause : Option WhereClause
deriving DecidableEq

/-- One item of the expanded output: the original declaration re-emitted,
or a synthesized implementation block. -/
inductive OutputItem where
  | origin (d : DeriveInput)
  | implBlock (b : ImplBlock)
deriving DecidableEq

/-- The implementation block `mark` synthesizes for one trait name
(src/lib.rs, the `quote_spanned!` inside `mark`). -/
def mkImpl (parsed : DeriveInput) (trait_name : Path) : ImplBlock :=
  let s := parsed.generics.splitForImpl
  { implGenerics := s.1
    traitName := trait_name
    selfIdent := parsed.ident
    tyGenerics := s.2.1
    whereClause := s.2.2 }

/-- An annotated source item as handed to the marking entry point before
re-parsing: a derive-input item (struct, enum, or union), a trait
declaration, or some other item at a span. -/
inductive Item where
  | adt (d : DeriveInput)
  | traitDecl (t : ItemTrait)
  | otherItem (sp : Span) (desc : String)
deriving DecidableEq

/-- The span of an annotated item. -/
def Item.span : Item → Span
  | .adt d => d.identSpan
  | .traitDecl t => t.span
  | .otherItem s _ => s

/-- Whether the annotated item is a struct or an enum declaration (a union
is neither). -/
def Item.isStructOrEnum : Item → Bool
  | .adt d =>
      match d.data with
      | Data.structData _ => true
      | Data.enumData _ => true
      | Data.unionData _ => false
  | _ => false

/-- Whether the annotated item is a derive-input item. -/
def Item.isAdt : Item → Bool
  | .adt _ => true
  | _ => false

/-- Re-parsing the annotated item as a syn::DeriveInput
(`parse_macro_input!(input as syn::DeriveInput)`): succeeds exactly on
struct, enum, and union declarations; anything else yields the parser's
own lookahead diagnostic. -/
def parseDeriveInput : Item → Except Diagnostic DeriveInput
  | Item.adt d => .ok d
  | Item.traitDecl t =>
      .error ⟨t.span, "expected one of: `struct`, `enum`, `union`"⟩
  | Item.otherItem s _ =>
      .error ⟨s, "expected one of: `struct`, `enum`, `union`"⟩

/-- The `mark` attribute (src/lib.rs, `pub fn mark`): re-parse the
annotated item as a derive input, collect the qualifiers (unused), parse
the attribute arguments into trait names, split the generics for the
implementation, and emit the original declaration followed by one empty
implementation block per trait name, in argument order. -/
def mark (args : List MetaArg) (input : Item) :
    Except Diagnostic (List OutputItem) :=
  match parseDeriveInput input with
  | .error e => .error e
  | .ok parsed =>
      let _qualifiers := Qualifiers.fromAttrs parsed.attrs
      match parseTraitNames args with
      | .error e => .error e
      | .ok trait_names =>
          .ok (OutputItem.origin parsed ::
            trait_names.map (fun tn => OutputItem.implBlock (mkImpl parsed tn)))

/-- The synthesized implementation blocks of an output sequence. -/
def implsOf (out : List OutputItem) : List ImplBlock :=
  out.filterMap
    (fun item =>
      match item with
      | OutputItem.implBlock b => some b
      | OutputItem.origin _ => none)

/-- Build the all-bare-path argument list that the meta parser accepts. -/
def pathArgs (l : List (Span × Path)) : List MetaArg :=
  l.map (fun a => MetaArg.path a.1 a.2)

/-- Generics with no parameters and no `where` clause. -/
def emptyGenerics : Generics := { params := [], whereClause := none }

/-- The path `Array` used by the test fixtures. -/
def arrayPath : Path := ⟨["Array"]⟩

/-- `struct Foo<T: Default>(T) where T: Clone;` from the spec's Scenario D. -/
def fooDecl : DeriveInput :=
  { attrs := []
    identSpan := 0
    ident := "Foo"
    generics :=
      { params := [GenericParam.typeParam "T" ["Default"]]
        whereClause := some ⟨["T: Clone"]⟩ }
    data := Data.structData [⟨"0", "T"⟩] }

/-- A declaration agreeing with `fooDecl` on name and generics but with an
attached `classifier(sealed)` attribute, another ident span, and a
different body. -/
def fooDecl2 : DeriveInput :=
  { attrs := [⟨Meta.list ⟨["classifier"]⟩ [⟨["sealed"]⟩]⟩]
    identSpan := 42
    ident := "Foo"
    generics := fooDecl.generics
    data := Data.enumData ["A", "B"] }

/-- `union U` with one field: parseable as a derive input, but neither a
struct nor an enum. -/
def unionDecl : DeriveInput :=
  { attrs := []
    identSpan := 0
    ident := "U"
    generics := emptyGenerics
    data := Data.unionData [⟨"x", "u32"⟩] }

/-- The empty trait `V` from the test fixtures. -/
def vTrait : ItemTrait :=
  { span := 5, ident := "V", supertraits := [], items := [] }

/-- An empty trait `W` (its super-trait list is supplied at use sites). -/
def wTrait : ItemTrait :=
  { span := 3, ident := "W", supertraits := [], items := [] }

/-- `trait Array` with one method signature, from the spec's Scenario B. -/
def nonEmptyTrait : ItemTrait :=
  { span := 9, ident := "Array", supertraits := []
    items := [TraitItem.fnItem "f"] }

/-- A nested-meta-list argument `foo(bar)` at span 7. -/
def nestedArg : MetaArg := MetaArg.metaList 7 ⟨["foo"]⟩ [⟨["bar"]⟩]

/-- Two bare-path arguments naming the same trait. -/
def dupArgs : List (Span × Path) := [(0, arrayPath), (1, arrayPath)]

theorem parseTraitNames_pathArgs (l : List (Span × Path)) :
    parseTraitNames (pathArgs l) = .ok (l.map Prod.snd) := by
  induction l with
  | nil => rfl
  | cons a l ih =>
      simp only [pathArgs, List.map_cons, parseTraitNames] at ih ⊢
      rw [ih]

theorem mark_pathArgs (d : DeriveInput) (l : List (Span × Path)) :
    mark (pathArgs l) (Item.adt d)
      = .ok (OutputItem.origin d ::
          l.map (fun a => OutputItem.implBlock (mkImpl d a.2))) := by
  simp [mark, parseDeriveInput, parseTraitNames_pathArgs, List.map_map]

/-- C1: for every type declaration and every argument list of bare trait
paths, `mark` succeeds and its output is the declaration unchanged first,
followed by one implementation block per argument in argument order —
N + 1 items for N arguments. -/
theorem mark_count_law (d : DeriveInput) (l : List (Span × Path)) :
    mark (pathArgs l) (Item.adt d)
      = .ok (OutputItem.origin d ::
          l.map (fun a => OutputItem.implBlock (mkImpl d a.2)))
    ∧ (OutputItem.origin d ::
        l.map (fun a => OutputItem.implBlock (mkImpl d a.2))).length
      = l.length + 1 := by
  refine ⟨mark_pathArgs d l, ?_⟩
  simp

/-- C7: marking with an empty argument list succeeds and yields exactly the
unmodified declaration, with no implementation blocks. -/
theorem mark_empty_args (d : DeriveInput) :
    mark [] (Item.adt d) = .ok [OutputItem.origin d] := rfl

/-- C3: validating a trait whose associated-item sequence is empty succeeds
and returns the declaration unchanged. -/
theorem marker_pass_through (t : ItemTrait) (h : t.items = []) :
    marker t = .ok t := by
  simp [marker, h]

/-- Witness for C3 at the empty trait `V`. -/
theorem marker_pass_through_w : marker vTrait = .ok vTrait :=
  marker_pass_through vTrait rfl

/-- C4: validating a trait with at least one associated item fails with the
fixed empty-body message anchored at the full declaration's span; no
declaration is emitted. -/
theorem marker_rejects_nonempty (t : ItemTrait) (h : t.items ≠ []) :
    marker t
      = .error ⟨t.span,
          "The #[marker] attribute can only be applied to empty traits"⟩ := by
  cases ht : t.items with
  | nil => exact absurd ht h
  | cons a l => simp [marker, ht]

/-- Witness for C4 at `trait Array` containing one method signature. -/
theorem marker_rejects_nonempty_w :
    marker nonEmptyTrait
      = .error ⟨nonEmptyTrait.span,
          "The #[marker] attribute can only be applied to empty traits"⟩ :=
  marker_rejects_nonempty nonEmptyTrait (by decide)

/-- C8: an empty trait passes validation whatever its super-trait list is;
the validator never inspects super-traits, so super-traits that are not
themselves markers do not fail it. -/
theorem marker_ignores_supertraits (t : ItemTrait) (sts : List Path)
    (h : t.items = []) :
    marker { t with supertraits := sts }
      = .ok { t with supertraits := sts } := by
  simp [marker, h]

/-- Witness for C8: the empty trait `W` passes with the non-marker
super-trait `Iterator`. -/
theorem marker_ignores_supertraits_w :
    marker { wTrait with supertraits := [⟨["Iterator"]⟩] }
      = .ok { wTrait with supertraits := [⟨["Iterator"]⟩] } :=
  marker_ignores_supertraits wTrait [⟨["Iterator"]⟩] rfl

/-- C2: every implementation block emitted for a type declaration declares
exactly the declaration's generic-parameter list (inline bounds attached)
in its impl header, applies the declaration's name with the parameters
used bare as the implementation target, and carries exactly the
declaration's `where` clause as its trailing constraint clause. -/
theorem mark_generics_fidelity (d : DeriveInput) (l : List (Span × Path))
    (out : List OutputItem) (b : ImplBlock)
    (hout : mark (pathArgs l) (Item.adt d) = .ok out)
    (hb : OutputItem.implBlock b ∈ out) :
    b.implGenerics = d.generics.params
      ∧ b.selfIdent = d.ident
      ∧ b.tyGenerics = d.generics.params.map GenericParam.bare
      ∧ b.whereClause = d.generics.whereClause := by
  rw [mark_pathArgs d l] at hout
  injection hout with h
  subst h
  rcases List.mem_cons.mp hb with h0 | hmem
  · exact OutputItem.noConfusion h0
  · rcases List.mem_map.mp hmem with ⟨a, _, ha⟩
    injection ha with hba
    subst hba
    simp [mkImpl, Generics.splitForImpl]

/-- Witness for C2 at the spec's Scenario D declaration and one `Array`
argument. -/
theorem mark_generics_fidelity_w :
    (mkImpl fooDecl arrayPath).implGenerics = fooDecl.generics.params
      ∧ (mkImpl fooDecl arrayPath).selfIdent = fooDecl.ident
      ∧ (mkImpl fooDecl arrayPath).tyGenerics
          = fooDecl.generics.params.map GenericParam.bare
      ∧ (mkImpl fooDecl arrayPath).whereClause
          = fooDecl.generics.whereClause :=
  mark_generics_fidelity fooDecl [(0, arrayPath)]
    [OutputItem.origin fooDecl, OutputItem.implBlock (mkImpl fooDecl arrayPath)]
    (mkImpl fooDecl arrayPath) rfl (by simp)

/-- C6: duplicate trait names are tolerated: `mark` succeeds and the
output holds, at the positions of the two occurrences, two identical
implementation blocks — neither deduplicated nor rejected. -/
theorem mark_duplicate_tolerance (d : DeriveInput) (l : List (Span × Path))
    (i j : Nat) (hi : i < l.length) (hj : j < l.length)
    (hp : l[i].2 = l[j].2) :
    ∃ out, mark (pathArgs l) (Item.adt d) = .ok out
      ∧ out.length = l.length + 1
      ∧ out[i + 1]? = some (OutputItem.implBlock (mkImpl d l[i].2))
      ∧ out[j + 1]? = out[i + 1]? := by
  refine ⟨_, mark_pathArgs d l, by simp, ?_, ?_⟩
  · simp [List.getElem?_map, List.getElem?_eq_getElem, hi]
  · simp [List.getElem?_map, List.getElem?_eq_getElem, hi, hj, hp]

/-- Witness for C6: the argument list `(Array, Array)` yields two equal
`Array` implementation blocks. -/
theorem mark_duplicate_tolerance_w :
    ∃ out, mark (pathArgs dupArgs) (Item.adt fooDecl) = .ok out
      ∧ out.length = dupArgs.length + 1
      ∧ out[0 + 1]? = some (OutputItem.implBlock (mkImpl fooDecl dupArgs[0].2))
      ∧ out[1 + 1]? = out[0 + 1]? :=
  mark_duplicate_tolerance fooDecl dupArgs 0 1 (by decide) (by decide) rfl

theorem parseTraitNames_append_error (pre : List (Span × Path))
    (a : MetaArg) (rest : List MetaArg) (e : Diagnostic)
    (h : parseTraitNames (a :: rest) = .error e) :
    parseTraitNames (pathArgs pre ++ a :: rest) = .error e := by
  induction pre with
  | nil => simpa [pathArgs] using h
  | cons b pre ih =>
      simp only [pathArgs, List.map_cons, List.cons_append] at ih ⊢
      rw [parseTraitNames, ih]

/-- C5 counterexample: a nested meta-list argument `foo(bar)` makes `mark`
fail, but with the comma-token diagnostic, not the "expected trait name"
message the claim requires for every non-bare-path argument. -/
theorem mark_nested_list_cex :
    mark [nestedArg] (Item.adt fooDecl) = .error ⟨7, "expected `,`"⟩
      ∧ (⟨7, "expected `,`"⟩ : Diagnostic).message ≠ "expected trait name" :=
  ⟨rfl, by decide⟩

/-- C5 amended: an argument list whose first non-bare-path entry is a
key-value pair fails with "expected trait name" anchored at that
argument's span; one whose first non-bare-path entry is a nested meta-list
also fails before any output is emitted, but with the parser's comma-token
diagnostic instead. -/
theorem mark_malformed_args :
    (∀ (d : DeriveInput) (pre : List (Span × Path)) (s : Span) (p : Path)
        (v : String) (rest : List MetaArg),
      mark (pathArgs pre ++ MetaArg.nameValue s p v :: rest) (Item.adt d)
        = .error ⟨s, "expected trait name"⟩)
    ∧ (∀ (d : DeriveInput) (pre : List (Span × Path)) (s : Span) (p : Path)
        (nested : List Path) (rest : List MetaArg),
      mark (pathArgs pre ++ MetaArg.metaList s p nested :: rest) (Item.adt d)
        = .error ⟨s, "expected `,`"⟩) := by
  constructor
  · intro d pre s p v rest
    have h := parseTraitNames_append_error pre (MetaArg.nameValue s p v) rest
      ⟨s, "expected trait name"⟩ rfl
    simp [mark, parseDeriveInput, h]
  · intro d pre s p nested rest
    have h := parseTraitNames_append_error pre (MetaArg.metaList s p nested) rest
      ⟨s, "expected `,`"⟩ rfl
    simp [mark, parseDeriveInput, h]

/-- C9 counterexample: a union declaration is not a struct or enum, yet
the marking entry point accepts it and emits output instead of failing. -/
theorem mark_union_cex :
    Item.isStructOrEnum (Item.adt unionDecl) = false
      ∧ mark [] (Item.adt unionDecl) = .ok [OutputItem.origin unionDecl] :=
  ⟨rfl, rfl⟩

/-- C9 amended: the entry point re-parses the annotated item as a derive
input, which accepts struct, enum, and union declarations alike; every
item that is none of these fails with the compiler-level parse diagnostic
and emits no output. -/
theorem mark_nonderive_fails (args : List MetaArg) (i : Item)
    (h : i.isAdt = false) :
    mark args i
      = .error ⟨i.span, "expected one of: `struct`, `enum`, `union`"⟩ := by
  cases i with
  | adt d => exact absurd h (by simp [Item.isAdt])
  | traitDecl t => rfl
  | otherItem s desc => rfl

/-- Witness for the amended C9 at a trait declaration. -/
theorem mark_nonderive_fails_w :
    mark [] (Item.traitDecl vTrait)
      = .error ⟨(Item.traitDecl vTrait).span,
          "expected one of: `struct`, `enum`, `union`"⟩ :=
  mark_nonderive_fails [] (Item.traitDecl vTrait) rfl

/-- C10: the synthesized implementation blocks depend only on the
annotated type's name and generics: two declarations agreeing on those —
however their attached attributes (such as `classifier(sealed)`, parsed
into the unused qualifiers) or their bodies differ — produce the same
implementation blocks for every argument list, and the same diagnostic on
failure. -/
theorem mark_impls_ignore_attrs_and_body (args : List MetaArg)
    (d1 d2 : DeriveInput) (h1 : d1.ident = d2.ident)
    (h2 : d1.generics = d2.generics) :
    Except.map implsOf (mark args (Item.adt d1))
      = Except.map implsOf (mark args (Item.adt d2)) := by
  cases hargs : parseTraitNames args with
  | error e => simp [mark, parseDeriveInput, hargs]
  | ok ps =>
      simp [mark, parseDeriveInput, hargs, implsOf, List.filterMap_cons,
        List.filterMap_map, Function.comp, mkImpl, Generics.splitForImpl,
        h1, h2, Except.map]

/-- Witness for C10: `fooDecl` and `fooDecl2` differ in attributes, ident
span, and body, yet produce the same implementation blocks. -/
theorem mark_impls_ignore_attrs_and_body_w :
    Except.map implsOf (mark (pathArgs dupArgs) (Item.adt fooDecl))
      = Except.map implsOf (mark (pathArgs dupArgs) (Item.adt fooDecl2)) :=
  mark_impls_ignore_attrs_and_body (pathArgs dupArgs) fooDecl fooDecl2 rfl rfl

end Himark
